import Mathlib

/-!
Verification of the session protocol engine of the mycelian-memory benchmark
harness (source: src/tools/benchmarker/session_simulator.py).

The Lean definitions below are a shallow embedding of the Python code:
pure logic becomes Lean functions, the mutable fields of SessionSimulator
become explicit record state, and each tool handler becomes a state
transition.  Fallible code returns Except or Option.  Time is modelled
with rationals, Python monotonic seconds.
-/

namespace SessionSim

/-! ## Conversation history model

The in-memory history list of SessionSimulator: plain user/assistant text
messages, assistant messages holding a single tool_use block (the echo the
engine appends after dispatch), and user messages holding a single
tool_result block.  This mirrors the shapes appended in
SessionSimulator.step (source lines 192, 394, 416-424, 445-452). -/

inductive HistEntry where
  | userText (s : String)
  | assistantText (s : String)
  | toolUseEcho (id name : String)
  | toolResult (toolUseId payload : String)
deriving DecidableEq, Repr

/-- Content blocks of one model response: text blocks and tool_use blocks
(the official Anthropic block shapes handled in step, lines 357-386). -/
inductive ContentBlock where
  | text (s : String)
  | toolUse (id name : String)
deriving DecidableEq, Repr

/-- Model of Python str.strip(): drop whitespace from both ends.  Defined
structurally over the character list so that concrete inputs evaluate. -/
def pyStrip (s : String) : String :=
  String.mk (((s.data.dropWhile Char.isWhitespace).reverse.dropWhile Char.isWhitespace).reverse)

/-- Loop of step over the content blocks, tracking the reply_text variable:
it starts at None and is overwritten with block.text.strip() by EVERY text
block encountered (source lines 354, 371-373). -/
def replyTextAux : List ContentBlock → Option String → Option String
  | [], acc => acc
  | ContentBlock.text s :: rest, _ => replyTextAux rest (some (pyStrip s))
  | ContentBlock.toolUse _ _ :: rest, acc => replyTextAux rest acc

/-- Visible reply returned by step: the reply_text variable after the block
loop, with the final fallback reply_text = reply_text or "" (line 389). -/
def replyText (blocks : List ContentBlock) : String :=
  (replyTextAux blocks none).getD ""

/-- The tool_use blocks collected by step, in response order: pairs of
(block id, tool name) (source lines 377-385). -/
def toolUseList (blocks : List ContentBlock) : List (String × String) :=
  blocks.filterMap fun b => match b with
    | ContentBlock.toolUse i n => some (i, n)
    | _ => none

/-- Status field of the tool_result payload.  The source computes it from
tc, the loop variable left over from the preceding for-loop over
tool_calls, hence from the LAST tool call name (lines 431-434). -/
def resultStatus (name : String) : String :=
  if name = "add_entry" ∨ name = "put_context" then "enqueued" else "OK"

/-- Name of the last tool call of the response, the stale tc that the
result-payload code of step reads (line 431). -/
def lastToolName (blocks : List ContentBlock) : String :=
  ((toolUseList blocks).getLast?.map Prod.snd).getD ""

/-- History entries appended by the for-loop over tool_use_blocks: for each
tool_use block, an assistant tool_use echo immediately followed by one user
tool_result carrying the same id (source lines 414-452). -/
def pairsFor (lastName : String) (tus : List (String × String)) : List HistEntry :=
  tus.flatMap fun tu =>
    [HistEntry.toolUseEcho tu.1 tu.2, HistEntry.toolResult tu.1 (resultStatus lastName)]

/-- History after one completed step call, starting from history h.
Appends: the user message; the assistant visible text when non-empty
(lines 392-394); then, when there are tool calls, whatever the dispatch
phase itself appended (nested diagnostic step calls issued by handlers,
passed here as dispatchAppends) followed by the echo/result pairs
(lines 400-452). -/
def stepHistory (h : List HistEntry) (userMsg : String) (blocks : List ContentBlock)
    (dispatchAppends : List HistEntry) : List HistEntry :=
  let h1 := h ++ [HistEntry.userText userMsg]
  let r := replyText blocks
  let h2 := if r = "" then h1 else h1 ++ [HistEntry.assistantText r]
  let tus := toolUseList blocks
  if tus.isEmpty then h2
  else h2 ++ dispatchAppends ++ pairsFor (lastToolName blocks) tus

/-- History after a step call whose tool dispatch raised: the exception
propagates out of step before the echo/result loop runs, so only the user
message, the optional assistant text and the dispatch-phase appends are in
history (source lines 396-404 and 528-560). -/
def stepHistoryDispatchError (h : List HistEntry) (userMsg : String)
    (blocks : List ContentBlock) (dispatchAppends : List HistEntry) : List HistEntry :=
  let h1 := h ++ [HistEntry.userText userMsg]
  let r := replyText blocks
  let h2 := if r = "" then h1 else h1 ++ [HistEntry.assistantText r]
  h2 ++ dispatchAppends

/-- Test for a tool_result entry. -/
def isToolResult : HistEntry → Bool
  | HistEntry.toolResult _ _ => true
  | _ => false

/-- Whether a history segment begins with a tool_result entry. -/
def headIsResult : List HistEntry → Bool
  | HistEntry.toolResult _ _ :: _ => true
  | _ => false

/-- Well-pairing of a history: every tool_use echo is immediately followed
by a tool_result with the same id, and by exactly one (the entry after that
result, if any, is not another tool_result). -/
def pairedHistory : List HistEntry → Bool
  | [] => true
  | HistEntry.toolUseEcho i _ :: HistEntry.toolResult j _ :: rest =>
      i == j && !(headIsResult rest) && pairedHistory rest
  | HistEntry.toolUseEcho _ _ :: _ => false
  | _ :: rest => pairedHistory rest

/-- Indexed reading of the pairing property, matching the claim wording:
at every position holding a tool_use echo, the next position holds a
tool_result with the same id and the position after it (when present) does
not hold a tool_result. -/
def PairedAt (l : List HistEntry) : Prop :=
  ∀ i id nm, l.get? i = some (HistEntry.toolUseEcho id nm) →
    (∃ p, l.get? (i + 1) = some (HistEntry.toolResult id p)) ∧
    (∀ e, l.get? (i + 2) = some e → isToolResult e = false)

/-- Blocks of a concrete model response: one text block and one tool_use
block, used to witness c1_step_history_paired. -/
def c1Blocks : List ContentBlock :=
  [ContentBlock.text "Sure.", ContentBlock.toolUse "toolu_01" "get_context"]

/-- Reply selection in the words of the specification claim: the first
text segment that is non-empty after stripping becomes the reply, and the
reply is empty when every text segment is empty.  Used only to compare
against replyText, which is translated from the source. -/
def firstNonEmptyText : List ContentBlock → String
  | [] => ""
  | ContentBlock.text s :: rest => if pyStrip s = "" then firstNonEmptyText rest else pyStrip s
  | ContentBlock.toolUse _ _ :: rest => firstNonEmptyText rest

/-- Response whose first text block is non-empty and whose last text block
is blank, separating the source behaviour from the claimed one. -/
def c5Blocks : List ContentBlock :=
  [ContentBlock.text "hello", ContentBlock.text "  "]

/-- Last text segment of a response, in response order. -/
def lastTextSegment : List ContentBlock → Option String
  | [] => none
  | ContentBlock.text s :: rest =>
      match lastTextSegment rest with
      | some t => some t
      | none => some s
  | ContentBlock.toolUse _ _ :: rest => lastTextSegment rest

/-- Test for a plain assistant text entry. -/
def isAssistantText : HistEntry → Bool
  | HistEntry.assistantText _ => true
  | _ => false

/-- Number of plain assistant text messages in a history. -/
def countAssistant (l : List HistEntry) : Nat :=
  l.countP fun e => isAssistantText e

/-! ## Dispatcher, bootstrap tracker and asset cache

State fields of SessionSimulator relevant to the bootstrap gate and the
asset cache (source lines 97-118), together with the per-tool handlers
that mutate them.  Handlers are state transitions returning the mutated
state and the raised-or-returned outcome; mutations performed before a
raise persist, as they do on the Python object.  The backend client
MycelianMemoryClient is an oracle parameter.  Resolution of the memory id
happens before the bodies modelled here and may itself raise; these
transitions model the calls for which resolution succeeded. -/

structure SimState where
  seenGetContext : Bool
  seenListEntries : Bool
  seenCtxRules : Bool
  ctxViolationAsked : Bool
  bootViolationAsked : Bool
  assetsDownloaded : List String
  assetCache : List (String × String)
  fetchLog : List String
deriving DecidableEq, Repr

/-- Required static assets of the bootstrap gate (source line 112). -/
def bootRequiredAssets : List String := ["ctx_rules"]

/-- State of a freshly constructed SessionSimulator. -/
def startState : SimState :=
  { seenGetContext := false, seenListEntries := false, seenCtxRules := false,
    ctxViolationAsked := false, bootViolationAsked := false,
    assetsDownloaded := [], assetCache := [], fetchLog := [] }

/-- Property is_bootstrap_complete (source lines 154-167): both mandatory
calls seen and the required asset set downloaded. -/
def isBootstrapComplete (s : SimState) : Bool :=
  s.seenGetContext && s.seenListEntries &&
    bootRequiredAssets.all fun a => s.assetsDownloaded.contains a

/-- Dictionary lookup over an association list (Python dict membership and
indexing; keys are unique because entries are only added on a miss). -/
def lookupStr (m : List (String × String)) (k : String) : Option String :=
  (m.find? fun p => p.1 == k).map Prod.snd

/-- Handler _exec_list_entries (source lines 649-677): limit 10 marks the
bootstrap flag; limit 5 raises the bootstrap-violation RuntimeError after
diagnostic turns; any other limit proceeds to the backend call. -/
def execListEntries (limit : Int) (s : SimState) : SimState × Except String Unit :=
  let s1 := if limit = 10 then { s with seenListEntries := true } else s
  if limit = 5 then
    (s1, Except.error "Assistant violated bootstrap rule by using list_entries limit 5")
  else (s1, Except.ok ())

/-- Handler _exec_get_context (source lines 699-726): on backend success
record the context and mark the bootstrap flag; on failure re-raise. -/
def execGetContext (backendOk : Bool) (s : SimState) : SimState × Except String Unit :=
  if backendOk then ({ s with seenGetContext := true }, Except.ok ())
  else (s, Except.error "get_context backend failure")

/-- Asset id selection of _exec_get_asset: args.get(id) or
args.get(asset_id), Python or taking the second when the first is falsy
(source line 758). -/
def chosenAssetId (argId argAssetId : Option String) : String :=
  if (argId.getD "") ≠ "" then argId.getD "" else argAssetId.getD ""

/-- Handler _exec_get_asset (source lines 756-778): missing id raises; a
cached id returns the cached text without a backend call; an empty backend
result raises without caching; otherwise the text is cached, ctx_rules is
flagged and the id recorded as downloaded.  fetchLog records the backend
get_asset calls issued. -/
def execGetAsset (backend : String → String) (argId argAssetId : Option String)
    (s : SimState) : SimState × Except String String :=
  if chosenAssetId argId argAssetId = "" then
    (s, Except.error "get_asset requires id argument")
  else
    match lookupStr s.assetCache (chosenAssetId argId argAssetId) with
    | some txt => (s, Except.ok txt)
    | none =>
        if backend (chosenAssetId argId argAssetId) = "" then
          ({ s with fetchLog := s.fetchLog ++ [chosenAssetId argId argAssetId] },
           Except.error "get_asset failed or returned empty")
        else
          ({ s with
              assetCache := s.assetCache ++
                [(chosenAssetId argId argAssetId, backend (chosenAssetId argId argAssetId))],
              fetchLog := s.fetchLog ++ [chosenAssetId argId argAssetId],
              seenCtxRules := if chosenAssetId argId argAssetId = "ctx_rules" then true
                else s.seenCtxRules,
              assetsDownloaded := s.assetsDownloaded ++ [chosenAssetId argId argAssetId] },
           Except.ok (backend (chosenAssetId argId argAssetId)))

/-- Bootstrap-relevant effect of _exec_put_context (source lines 831-841):
the ctx_rules advisory question is asked at most once. -/
def execPutContextBoot (s : SimState) : SimState :=
  if !s.seenCtxRules && !s.ctxViolationAsked then { s with ctxViolationAsked := true } else s

/-- Bootstrap-relevant effect of _exec_add_entry (source lines 630-647):
after a successful store, the add-entry-before-list advisory question is
asked at most once. -/
def execAddEntryBoot (succeeded : Bool) (s : SimState) : SimState :=
  if succeeded && s.seenGetContext && !s.seenListEntries && !s.bootViolationAsked then
    { s with bootViolationAsked := true } else s

/-- Tool operations of one session, as dispatched by _dispatch_tool_calls
(source lines 528-560).  Oracle outcomes of the backend are carried on the
constructor: getContext carries whether the backend call succeeded,
getAsset carries the argument fields and the text the backend would
return (empty string for a falsy result). -/
inductive SimOp where
  | addEntry (succeeded : Bool)
  | putContext
  | listEntries (limit : Int)
  | searchMemories
  | createMemory
  | getContext (backendOk : Bool)
  | getUser
  | getMemory
  | awaitConsistency
  | listAssets
  | getAsset (argId argAssetId : Option String) (backendText : String)
deriving DecidableEq, Repr

/-- Effect of one dispatched tool call on the bootstrap and cache state.
search_memories, create_memory, get_user, get_memory, await_consistency
and list_assets do not touch these fields (source lines 679-754). -/
def applyOp (s : SimState) : SimOp → SimState
  | SimOp.addEntry ok => execAddEntryBoot ok s
  | SimOp.putContext => execPutContextBoot s
  | SimOp.listEntries limit => (execListEntries limit s).1
  | SimOp.getContext ok => (execGetContext ok s).1
  | SimOp.getAsset a b txt => (execGetAsset (fun _ => txt) a b s).1
  | _ => s

/-- Cumulative effect of a sequence of dispatched tool calls. -/
def applyOps (s : SimState) (ops : List SimOp) : SimState :=
  ops.foldl applyOp s

/-- Operation sequence completing the bootstrap, used by the witness. -/
def c3Ops : List SimOp :=
  [SimOp.getContext true, SimOp.listEntries 10, SimOp.getAsset (some "ctx_rules") none "rules text"]

/-- Cached state used by the c10 witness: the session has already fetched
ctx_rules once. -/
def c10State : SimState :=
  { startState with assetCache := [("ctx_rules", "rules text")],
                    fetchLog := ["ctx_rules"] }

/-- Python truthiness of an optional string: None and the empty string are
falsy. -/
def truthyOpt : Option String → Bool
  | none => false
  | some s => !s.isEmpty

/-- Character class [0-9a-fA-F-] of the UUID-shaped regex used by
_resolve_memory_id (source line 131). -/
def uuidChar (c : Char) : Bool :=
  (Char.ofNat 48 ≤ c && c ≤ Char.ofNat 57) ||
  (Char.ofNat 97 ≤ c && c ≤ Char.ofNat 102) ||
  (Char.ofNat 65 ≤ c && c ≤ Char.ofNat 70) ||
  c == Char.ofNat 45

/-- Test for the regex fullmatch of [0-9a-fA-F-]{36}: exactly 36
characters, each in the class. -/
def isUuidLike (s : String) : Bool :=
  s.length == 36 && s.data.all uuidChar

/-- Function _resolve_memory_id (source lines 123-142), translated branch
by branch: a UUID-shaped candidate is returned as given; else a candidate
present in the alias map resolves through it; else a truthy memory_id
attribute of the prompt builder is used; else a truthy candidate is
returned as a last resort; else ValueError. -/
def resolveMemoryId (aliases : List (String × String)) (memIdAttr : Option String)
    (candidate : Option String) : Except String String :=
  if truthyOpt candidate && isUuidLike (candidate.getD "") then
    Except.ok (candidate.getD "")
  else
    match (if truthyOpt candidate then lookupStr aliases (candidate.getD "") else none) with
    | some v => Except.ok v
    | none =>
        if truthyOpt memIdAttr then Except.ok (memIdAttr.getD "")
        else if truthyOpt candidate then Except.ok (candidate.getD "")
        else Except.error "Unable to resolve memory_id - none provided and none stored"

/-- Resolution in the words of the specification claim, for comparison
with resolveMemoryId: accept a literal (UUID-shaped) identifier as given,
otherwise fall back to the title-to-identifier alias map, otherwise to the
session-scoped default, and fail with a resolution error exactly when none
of these is available. -/
def resolveMemoryIdSpec (aliases : List (String × String)) (memIdAttr : Option String)
    (candidate : Option String) : Except String String :=
  if truthyOpt candidate && isUuidLike (candidate.getD "") then
    Except.ok (candidate.getD "")
  else
    match (if truthyOpt candidate then lookupStr aliases (candidate.getD "") else none) with
    | some v => Except.ok v
    | none =>
        if truthyOpt memIdAttr then Except.ok (memIdAttr.getD "")
        else Except.error "Unable to resolve memory_id - none provided and none stored"

/-- Alias map of the c8 witness. -/
def c8Aliases : List (String × String) :=
  [("trip notes", "123e4567-e89b-12d3-a456-426614174000")]

/-! ## Session closer -/

/-- Counters of the SessionSimulator observed right after one step call of
the close_session loop: _message_counter, _last_context_update and the
returned reply. -/
structure StepCounters where
  msgCounter : Nat
  lastCtxUpdate : Nat
  reply : String
deriving DecidableEq, Repr

/-- Exit test of close_session after each attempt (source line 493):
the recorded last-context-update turn equals the current message
counter. -/
def ctxCaptured (r : StepCounters) : Bool :=
  r.lastCtxUpdate == r.msgCounter

/-- Result of close_session: a clean return with the reply, the
RuntimeError raised after the attempt budget (carrying the optional
explanation), or an exception propagating out of a step call. -/
inductive CloseOutcome where
  | closed (reply : String)
  | closeFailed (explanation : Option String)
  | stepRaised
deriving DecidableEq, Repr

/-- Attempt loop of close_session (source lines 487-523).  The script maps
an attempt index to the counters observed right after that attempt's step,
none when the step raised.  With the budget exhausted, one more
explanation step is attempted (its own failure swallowed by the
try/except) and the RuntimeError is raised regardless.  The prompt sent
per attempt (full instruction, sentinel nudge, or every-third reminder)
varies but does not affect the control flow modelled here. -/
def closeLoop (script : Nat → Option StepCounters) : Nat → Nat → CloseOutcome
  | i, 0 =>
      match script i with
      | some r => CloseOutcome.closeFailed (some r.reply)
      | none => CloseOutcome.closeFailed none
  | i, fuel + 1 =>
      match script i with
      | none => CloseOutcome.stepRaised
      | some r =>
          if ctxCaptured r then CloseOutcome.closed r.reply
          else closeLoop script (i + 1) fuel

/-- Whole close_session call: MAX_TURNS = 10 attempts starting at attempt
index 0. -/
def closeSessionRun (script : Nat → Option StepCounters) : CloseOutcome :=
  closeLoop script 0 10

/-- Script of the c2 witness: the first attempt drains entries without a
snapshot write, the second attempt is observed with the counters equal. -/
def c2Script : Nat → Option StepCounters :=
  fun i => if i = 0 then some { msgCounter := 3, lastCtxUpdate := 0, reply := "draining" }
    else some { msgCounter := 5, lastCtxUpdate := 5, reply := "control:note_taker_assistant OK" }

/-! ## Overload retry loop of step

Model of the HTTP 529/500 branch of the retry loop in step (source lines
234-273): max_deadline is computed once before the loop as the current
monotonic time plus 600 seconds; each capacity-overload failure checks
now + overload_backoff against it, raising when past it, otherwise
sleeping overload_backoff seconds and doubling it capped at 300.  Time is
rational; each list element is the duration of one failing provider
call. -/

structure OverloadState where
  time : ℚ
  backoff : ℚ
deriving DecidableEq, Repr

/-- One failing provider call of duration dur followed by the retry
bookkeeping: at now = time + dur, raise (none) when now + backoff passes
the deadline, else sleep backoff seconds and double it capped at 300. -/
def overloadFail (deadline dur : ℚ) (s : OverloadState) : Option OverloadState :=
  if deadline < s.time + dur + s.backoff then none
  else some { time := s.time + dur + s.backoff, backoff := min (s.backoff * 2) 300 }

/-- Retry loop over a run of consecutive overload failures; none means the
overload error propagated to the caller of step. -/
def overloadRun (deadline : ℚ) : List ℚ → OverloadState → Option OverloadState
  | [], s => some s
  | d :: ds, s =>
      match overloadFail deadline d s with
      | none => none
      | some s1 => overloadRun deadline ds s1

/-- Sleep durations performed by the retry loop, in order. -/
def overloadDelays (deadline : ℚ) : List ℚ → OverloadState → List ℚ
  | [], _ => []
  | d :: ds, s =>
      match overloadFail deadline d s with
      | none => []
      | some s1 => s.backoff :: overloadDelays deadline ds s1

/-- Loop state at entry: overload_backoff = 60 (source line 237), time
being the moment max_deadline was computed. -/
def overloadStart (t0 : ℚ) : OverloadState :=
  { time := t0, backoff := 60 }

/-! ## add_entry summary validation -/

/-- Arguments of an add_entry tool call, each field optional as in the
JSON argument object. -/
structure AddEntryArgs where
  summary : Option String
  rawEntry : Option String
  role : Option String
  memoryId : Option String
deriving DecidableEq, Repr

/-- Python test of _exec_add_entry, source line 564: the summary key is
absent, or present but falsy (the empty string). -/
def summaryMissing (a : AddEntryArgs) : Bool :=
  match a.summary with
  | none => true
  | some s => s.isEmpty

/-- Errors raised by the dispatcher handlers. -/
inductive ToolError where
  | valueError (msg : String)
  | runtimeError (msg : String)
deriving DecidableEq, Repr

/-- Record of the diagnostic side-channel activity of one handler run:
how many diagnostic step calls were attempted, and the explanation
captured when the nested step succeeded (the except clause swallows its
failure and logs instead). -/
structure DiagRecord where
  prompts : Nat
  logged : Option String
deriving DecidableEq, Repr

/-- Summary gate of _exec_add_entry (source lines 562-577): on a missing
or empty summary, exactly one diagnostic step is attempted asking the
model which rules it followed (its outcome only logged, never consulted),
then the ValueError is raised regardless.  Otherwise the remainder of the
handler runs; the claim concerns only this gate, so the remainder is the
rest argument. -/
def execAddEntrySummaryGate (diagOutcome : Except String String)
    (rest : DiagRecord × Option ToolError) (a : AddEntryArgs) :
    DiagRecord × Option ToolError :=
  if summaryMissing a then
    ({ prompts := 1,
       logged := match diagOutcome with
         | Except.ok expl => some expl
         | Except.error _ => none },
     some (ToolError.valueError "add_entry tool call missing mandatory summary field"))
  else rest

/-- Number of tool_result entries of a history carrying the given
tool_use_id. -/
def countResultsFor (id : String) (l : List HistEntry) : Nat :=
  l.countP fun e => match e with
    | HistEntry.toolResult j _ => j == id
    | _ => false

/-- Arguments of the c7 witness: summary present but empty. -/
def c7Args : AddEntryArgs :=
  { summary := some "", rawEntry := some "Alice: hi", role := some "speaker_1",
    memoryId := none }

/-- Model response of the c7 witness: one add_entry tool call. -/
def c7Blocks : List ContentBlock := [ContentBlock.toolUse "toolu_02" "add_entry"]

/-! ## Process-wide rate limiter

Model of _respect_rate_limit (source lines 37-47) under the cooperative
asyncio scheduling of several concurrent sessions.  Time is an integer
count of hundredths of a second (the arithmetic of the source - add,
subtract, compare - is scale invariant, and monotonic() float seconds at
this granularity carry the claim exactly).  The default interval is 15.0
seconds, so 1500 hundredths.  The body reads the module global
_last_call_ts, computes sleep_for, and when sleep_for is positive awaits
asyncio.sleep, yielding to the event loop BETWEEN that read and the later
write of _last_call_ts; when sleep_for is not positive there is no await
point and read and write are atomic.  After _respect_rate_limit returns,
step awaits a jitter sleep of 0.05 to 0.15 seconds and then issues the
outbound provider call (source lines 226-245). -/

def rateIntervalCs : Int := 1500

/-- Progress of one session task through _respect_rate_limit and the
following jitter sleep: about to run the body; suspended in
asyncio.sleep(sleep_for) until the wake time; past the _last_call_ts
write, in the jitter sleep, issuing the call at the wake time; done, call
issued at the recorded time. -/
inductive TaskPhase where
  | ready
  | sleeping (wake : Int)
  | jitterWait (wake : Int)
  | madeCall (t : Int)
deriving DecidableEq, Repr

structure RateTask where
  phase : TaskPhase
  jitter : Int
deriving DecidableEq, Repr

/-- Event-loop state: the monotonic clock, the module global
_last_call_ts, the task set and the issue times of the outbound provider
calls so far. -/
structure RateLoopState where
  clock : Int
  lastCallTs : Int
  tasks : List RateTask
  calls : List Int
deriving DecidableEq, Repr

/-- Run the next synchronous segment of task i.  ready: execute the body
up to its only possible await; sleep_for positive suspends until clock +
sleep_for without writing the timestamp, otherwise the timestamp is
written at once and the task proceeds to the jitter sleep.  sleeping: the
event loop resumes the coroutine no earlier than its wake time; it then
writes _last_call_ts = time.monotonic() and proceeds to the jitter sleep.
jitterWait: at the wake time the outbound call is issued. -/
def imax (a b : Int) : Int := if a ≤ b then b else a

def runRateTask (s : RateLoopState) (i : Nat) : RateLoopState :=
  match s.tasks.get? i with
  | none => s
  | some tk =>
      match tk.phase with
      | TaskPhase.ready =>
          if rateIntervalCs - (s.clock - s.lastCallTs) > 0 then
            let w := s.clock + (rateIntervalCs - (s.clock - s.lastCallTs))
            let tk2 := { tk with phase := TaskPhase.sleeping w }
            { s with tasks := s.tasks.set i tk2 }
          else
            let tk2 := { tk with phase := TaskPhase.jitterWait (s.clock + tk.jitter) }
            { s with lastCallTs := s.clock, tasks := s.tasks.set i tk2 }
      | TaskPhase.sleeping wake =>
          let tk2 := { tk with phase := TaskPhase.jitterWait (imax s.clock wake + tk.jitter) }
          { s with clock := imax s.clock wake, lastCallTs := imax s.clock wake,
                   tasks := s.tasks.set i tk2 }
      | TaskPhase.jitterWait wake =>
          let tk2 := { tk with phase := TaskPhase.madeCall (imax s.clock wake) }
          { s with clock := imax s.clock wake, calls := s.calls ++ [imax s.clock wake],
                   tasks := s.tasks.set i tk2 }
      | TaskPhase.madeCall _ => s

/-- Run the event loop under an explicit schedule of task indices. -/
def runRateSched (s : RateLoopState) : List Nat → RateLoopState
  | [] => s
  | i :: rest => runRateSched (runRateTask s i) rest

/-- Failing input of the claim: two concurrent sessions both enter
_respect_rate_limit at monotonic time 5.00 s with _last_call_ts = 0, with
jitters 0.05 s and 0.15 s. -/
def c9Start : RateLoopState :=
  { clock := 500, lastCallTs := 0,
    tasks := [{ phase := TaskPhase.ready, jitter := 5 },
              { phase := TaskPhase.ready, jitter := 15 }],
    calls := [] }

theorem headIsResult_cons (e : HistEntry) (l : List HistEntry) :
    headIsResult (e :: l) = isToolResult e := by
  cases e <;> rfl

theorem headIsResult_append (l t : List HistEntry) (hl : headIsResult l = false)
    (ht : headIsResult t = false) : headIsResult (l ++ t) = false := by
  cases l with
  | nil => simpa using ht
  | cons e rest => simpa [headIsResult_cons] using hl

theorem pairedHistory_pair (i n j p : String) (rest : List HistEntry) :
    pairedHistory (HistEntry.toolUseEcho i n :: HistEntry.toolResult j p :: rest)
      = (i == j && !(headIsResult rest) && pairedHistory rest) := rfl

theorem pairedHistory_user (s : String) (rest : List HistEntry) :
    pairedHistory (HistEntry.userText s :: rest) = pairedHistory rest := rfl

theorem pairedHistory_assistant (s : String) (rest : List HistEntry) :
    pairedHistory (HistEntry.assistantText s :: rest) = pairedHistory rest := rfl

theorem pairedHistory_result (a b : String) (rest : List HistEntry) :
    pairedHistory (HistEntry.toolResult a b :: rest) = pairedHistory rest := rfl

theorem paired_append (h : List HistEntry) : ∀ t : List HistEntry,
    pairedHistory h = true → headIsResult t = false → pairedHistory t = true →
    pairedHistory (h ++ t) = true := by
  induction h using pairedHistory.induct with
  | case1 =>
      intro t _ _ ht
      simpa using ht
  | case2 i nmu j p rest ih =>
      intro t hp hh ht
      rw [pairedHistory_pair] at hp
      simp only [Bool.and_eq_true, Bool.not_eq_true'] at hp
      obtain ⟨⟨hij, hres⟩, hrest⟩ := hp
      have hres2 : headIsResult (rest ++ t) = false := by
        cases rest with
        | nil => simpa using hh
        | cons e r2 =>
            rw [List.cons_append, headIsResult_cons]
            rw [headIsResult_cons] at hres
            exact hres
      simp only [List.cons_append, pairedHistory_pair, Bool.and_eq_true, Bool.not_eq_true']
      exact ⟨⟨hij, hres2⟩, ih t hrest hh ht⟩
  | case3 i nmu tail hne =>
      intro t hp _ _
      exfalso
      cases tail with
      | nil => simp [pairedHistory] at hp
      | cons e r2 =>
          cases e with
          | userText s => simp [pairedHistory] at hp
          | assistantText s => simp [pairedHistory] at hp
          | toolUseEcho a b => simp [pairedHistory] at hp
          | toolResult a b => exact hne a b r2 rfl
  | case4 hd rest hne1 hne2 ih =>
      intro t hp hh ht
      cases hd with
      | userText s =>
          rw [List.cons_append, pairedHistory_user]
          rw [pairedHistory_user] at hp
          exact ih t hp hh ht
      | assistantText s =>
          rw [List.cons_append, pairedHistory_assistant]
          rw [pairedHistory_assistant] at hp
          exact ih t hp hh ht
      | toolResult a b =>
          rw [List.cons_append, pairedHistory_result]
          rw [pairedHistory_result] at hp
          exact ih t hp hh ht
      | toolUseEcho a b =>
          exact (hne2 a b rfl).elim

theorem pairsFor_cons (nm : String) (tu : String × String) (tus : List (String × String)) :
    pairsFor nm (tu :: tus) = HistEntry.toolUseEcho tu.1 tu.2 ::
      HistEntry.toolResult tu.1 (resultStatus nm) :: pairsFor nm tus := by
  simp [pairsFor]

theorem headIsResult_pairsFor (nm : String) (tus : List (String × String)) :
    headIsResult (pairsFor nm tus) = false := by
  cases tus with
  | nil => rfl
  | cons tu rest => rw [pairsFor_cons, headIsResult_cons]; rfl

theorem paired_pairsFor (nm : String) (tus : List (String × String)) :
    pairedHistory (pairsFor nm tus) = true := by
  induction tus with
  | nil => rfl
  | cons tu rest ih =>
      rw [pairsFor_cons, pairedHistory_pair]
      simp [headIsResult_pairsFor, ih]

theorem paired_stepHistory (h d : List HistEntry) (u : String) (blocks : List ContentBlock)
    (hh : pairedHistory h = true) (hd : pairedHistory d = true)
    (hd2 : headIsResult d = false) :
    pairedHistory (stepHistory h u blocks d) = true := by
  have huser : pairedHistory (h ++ [HistEntry.userText u]) = true :=
    paired_append h [HistEntry.userText u] hh rfl rfl
  have h2paired : ∀ pre : List HistEntry, pairedHistory pre = true →
      pairedHistory (if replyText blocks = "" then pre
        else pre ++ [HistEntry.assistantText (replyText blocks)]) = true := by
    intro pre hpre
    by_cases hr : replyText blocks = ""
    · simpa [hr] using hpre
    · simpa [hr] using paired_append pre [HistEntry.assistantText (replyText blocks)] hpre rfl rfl
  unfold stepHistory
  by_cases hemp : (toolUseList blocks).isEmpty
  · simpa [hemp] using h2paired (h ++ [HistEntry.userText u]) huser
  · have hbase := h2paired (h ++ [HistEntry.userText u]) huser
    have hdp : pairedHistory (d ++ pairsFor (lastToolName blocks) (toolUseList blocks)) = true :=
      paired_append d _ hd (headIsResult_pairsFor _ _) (paired_pairsFor _ _)
    have hdh : headIsResult (d ++ pairsFor (lastToolName blocks) (toolUseList blocks)) = false :=
      headIsResult_append d _ hd2 (headIsResult_pairsFor _ _)
    simp only [hemp, if_false, Bool.false_eq_true]
    rw [List.append_assoc]
    exact paired_append _ _ hbase hdh hdp

theorem pairedAt_of_paired : ∀ l : List HistEntry, pairedHistory l = true → PairedAt l := by
  intro l
  induction l using pairedHistory.induct with
  | case1 =>
      intro _ i id nm hi
      simp at hi
  | case2 a na j p rest ih =>
      intro hp
      rw [pairedHistory_pair] at hp
      simp only [Bool.and_eq_true, Bool.not_eq_true', beq_iff_eq] at hp
      obtain ⟨⟨hij, hres⟩, hrest⟩ := hp
      have IH := ih hrest
      intro i id nm hi
      match i with
      | 0 =>
          rw [List.get?_cons_zero] at hi
          injection hi with hi2
          injection hi2 with hid hnm
          constructor
          · refine ⟨p, ?_⟩
            rw [List.get?_cons_succ, List.get?_cons_zero, ← hid, hij]
          · intro e he
            rw [List.get?_cons_succ, List.get?_cons_succ] at he
            cases rest with
            | nil => simp at he
            | cons r rr =>
                rw [List.get?_cons_zero] at he
                injection he with he2
                rw [headIsResult_cons] at hres
                rw [← he2]
                exact hres
      | 1 =>
          rw [List.get?_cons_succ, List.get?_cons_zero] at hi
          simp at hi
      | Nat.succ (Nat.succ n) =>
          rw [List.get?_cons_succ, List.get?_cons_succ] at hi
          obtain ⟨⟨p2, hp1⟩, hp2⟩ := IH n id nm hi
          constructor
          · exact ⟨p2, by rw [List.get?_cons_succ, List.get?_cons_succ]; exact hp1⟩
          · intro e he
            rw [List.get?_cons_succ, List.get?_cons_succ] at he
            exact hp2 e he
  | case3 a na tail hne =>
      intro hp
      exfalso
      cases tail with
      | nil => simp [pairedHistory] at hp
      | cons e r2 =>
          cases e with
          | userText s => simp [pairedHistory] at hp
          | assistantText s => simp [pairedHistory] at hp
          | toolUseEcho x y => simp [pairedHistory] at hp
          | toolResult x y => exact hne x y r2 rfl
  | case4 hd rest hne1 hne2 ih =>
      intro hp
      have hp2 : pairedHistory rest = true := by
        cases hd with
        | userText s => rw [pairedHistory_user] at hp; exact hp
        | assistantText s => rw [pairedHistory_assistant] at hp; exact hp
        | toolResult a b => rw [pairedHistory_result] at hp; exact hp
        | toolUseEcho a b => exact (hne2 a b rfl).elim
      have IH := ih hp2
      intro i id nm hi
      match i with
      | 0 =>
          rw [List.get?_cons_zero] at hi
          injection hi with hi2
          subst hi2
          exact (hne2 id nm rfl).elim
      | Nat.succ n =>
          rw [List.get?_cons_succ] at hi
          obtain ⟨⟨p2, hp1⟩, hpb⟩ := IH n id nm hi
          constructor
          · exact ⟨p2, by rw [List.get?_cons_succ]; exact hp1⟩
          · intro e he
            rw [List.get?_cons_succ] at he
            exact hpb e he

theorem getLast_not_echo (l : List HistEntry) (hp : pairedHistory l = true) :
    ∀ id nm, l.getLast? ≠ some (HistEntry.toolUseEcho id nm) := by
  intro id nm hlast
  have hA := pairedAt_of_paired l hp
  have hlen : l ≠ [] := by
    intro h
    subst h
    simp at hlast
  have hget : l.get? (l.length - 1) = some (HistEntry.toolUseEcho id nm) := by
    rw [← List.getLast?_eq_get?]
    exact hlast
  obtain ⟨⟨p, hp1⟩, _⟩ := hA (l.length - 1) id nm hget
  have hlpos : l.length - 1 + 1 = l.length :=
    Nat.succ_pred_eq_of_pos (List.length_pos.mpr hlen)
  rw [hlpos] at hp1
  have hnone : l.get? l.length = none := by simp [List.get?_eq_none]
  rw [hnone] at hp1
  exact Option.noConfusion hp1

/-- C1: for every session and every completed step call, the resulting
history has every tool-use echo entry immediately followed by exactly one
tool-result entry carrying the same tool_use_id, and the history never
ends with a dangling tool-use entry lacking its matching tool-result.
Stated as preservation: if the history before the call is well paired and
the entries appended by nested diagnostic turns during dispatch are well
paired and do not begin with a tool_result, then the history after step is
well paired (also in the indexed reading PairedAt) and its last entry is
not a tool-use echo. -/
theorem c1_step_history_paired (h d : List HistEntry) (u : String)
    (blocks : List ContentBlock)
    (hh : pairedHistory h = true) (hd : pairedHistory d = true)
    (hd2 : headIsResult d = false) :
    pairedHistory (stepHistory h u blocks d) = true ∧
    PairedAt (stepHistory h u blocks d) ∧
    ∀ id nm, (stepHistory h u blocks d).getLast? ≠ some (HistEntry.toolUseEcho id nm) := by
  have hp := paired_stepHistory h d u blocks hh hd hd2
  exact ⟨hp, pairedAt_of_paired _ hp, getLast_not_echo _ hp⟩

theorem c1_step_history_paired_witness :
    (pairedHistory ([] : List HistEntry) = true ∧
     pairedHistory ([] : List HistEntry) = true ∧
     headIsResult ([] : List HistEntry) = false) ∧
    (pairedHistory (stepHistory [] "hello" c1Blocks []) = true ∧
     PairedAt (stepHistory [] "hello" c1Blocks []) ∧
     ∀ id nm, (stepHistory [] "hello" c1Blocks []).getLast? ≠
       some (HistEntry.toolUseEcho id nm)) :=
  ⟨⟨rfl, rfl, rfl⟩, c1_step_history_paired [] [] "hello" c1Blocks rfl rfl rfl⟩

/-- C5 counterexample: on a response holding the text blocks "hello" and
"  " the source returns the stripped LAST text block, hence the empty
string, while the claim mandates the first non-empty text segment
"hello". -/
theorem c5_reply_counterexample :
    replyText c5Blocks = "" ∧ firstNonEmptyText c5Blocks = "hello" ∧
    replyText c5Blocks ≠ firstNonEmptyText c5Blocks := by
  exact ⟨rfl, by decide, by decide⟩

theorem replyTextAux_lastText (blocks : List ContentBlock) : ∀ acc : Option String,
    replyTextAux blocks acc = match lastTextSegment blocks with
      | some s => some (pyStrip s)
      | none => acc := by
  induction blocks with
  | nil => intro acc; rfl
  | cons b rest ih =>
      intro acc
      cases b with
      | text s =>
          rw [show replyTextAux (ContentBlock.text s :: rest) acc
                = replyTextAux rest (some (pyStrip s)) from rfl, ih]
          cases hl : lastTextSegment rest <;> simp [lastTextSegment, hl]
      | toolUse i n =>
          rw [show replyTextAux (ContentBlock.toolUse i n :: rest) acc
                = replyTextAux rest acc from rfl, ih]
          cases hl : lastTextSegment rest <;> simp [lastTextSegment, hl]

theorem pairsFor_not_assistant (nm : String) (tus : List (String × String)) :
    ∀ a ∈ pairsFor nm tus, isAssistantText a = false := by
  induction tus with
  | nil => intro a ha; simp [pairsFor] at ha
  | cons tu rest ih =>
      intro a ha
      rw [pairsFor_cons] at ha
      rcases List.mem_cons.mp ha with h1 | ha2
      · subst h1; rfl
      · rcases List.mem_cons.mp ha2 with h2 | h3
        · subst h2; rfl
        · exact ih a h3

/-- C5 as corrected: step returns the stripped text of the LAST text
segment of the response (the empty string when there is none), and it
appends an assistant text message to history exactly when that reply is
non-empty. -/
theorem c5_reply_is_last_text (blocks : List ContentBlock) (h : List HistEntry) (u : String) :
    replyText blocks = ((lastTextSegment blocks).map pyStrip).getD "" ∧
    countAssistant (stepHistory h u blocks []) =
      countAssistant h + (if replyText blocks = "" then 0 else 1) := by
  constructor
  · rw [replyText, replyTextAux_lastText]
    cases hl : lastTextSegment blocks <;> simp [hl]
  · unfold stepHistory
    by_cases hemp : (toolUseList blocks).isEmpty <;>
      by_cases hr : replyText blocks = "" <;>
        simp [hemp, hr, countAssistant, List.countP_append, List.countP_cons,
          isAssistantText] <;>
      exact fun a ha => pairsFor_not_assistant _ _ a ha

theorem applyOp_seenGetContext (s : SimState) (op : SimOp) :
    (applyOp s op).seenGetContext = s.seenGetContext ∨ op = SimOp.getContext true := by
  cases op with
  | addEntry ok =>
      left
      simp only [applyOp, execAddEntryBoot]
      split_ifs <;> rfl
  | putContext =>
      left
      simp only [applyOp, execPutContextBoot]
      split_ifs <;> rfl
  | listEntries limit =>
      left
      simp only [applyOp, execListEntries]
      split_ifs <;> rfl
  | getContext ok =>
      cases ok with
      | true => right; rfl
      | false => left; simp [applyOp, execGetContext]
  | getAsset a b txt =>
      left
      simp only [applyOp, execGetAsset]
      by_cases h1 : chosenAssetId a b = ""
      · simp [h1]
      · simp only [h1, if_false]
        cases hc : lookupStr s.assetCache (chosenAssetId a b) with
        | some t => simp
        | none => split_ifs <;> rfl
  | searchMemories => left; rfl
  | createMemory => left; rfl
  | getUser => left; rfl
  | getMemory => left; rfl
  | awaitConsistency => left; rfl
  | listAssets => left; rfl

theorem applyOp_seenListEntries (s : SimState) (op : SimOp) :
    (applyOp s op).seenListEntries = s.seenListEntries ∨ op = SimOp.listEntries 10 := by
  cases op with
  | addEntry ok =>
      left
      simp only [applyOp, execAddEntryBoot]
      split_ifs <;> rfl
  | putContext =>
      left
      simp only [applyOp, execPutContextBoot]
      split_ifs <;> rfl
  | listEntries limit =>
      by_cases h10 : limit = 10
      · right; rw [h10]
      · left
        simp only [applyOp, execListEntries, h10, if_false]
        split_ifs <;> rfl
  | getContext ok =>
      left
      simp only [applyOp, execGetContext]
      split_ifs <;> rfl
  | getAsset a b txt =>
      left
      simp only [applyOp, execGetAsset]
      by_cases h1 : chosenAssetId a b = ""
      · simp [h1]
      · simp only [h1, if_false]
        cases hc : lookupStr s.assetCache (chosenAssetId a b) with
        | some t => simp
        | none => split_ifs <;> rfl
  | searchMemories => left; rfl
  | createMemory => left; rfl
  | getUser => left; rfl
  | getMemory => left; rfl
  | awaitConsistency => left; rfl
  | listAssets => left; rfl

theorem applyOp_assetsDownloaded (s : SimState) (op : SimOp) :
    (applyOp s op).assetsDownloaded = s.assetsDownloaded ∨
    ∃ a b txt, op = SimOp.getAsset a b txt ∧ txt ≠ "" ∧
      (applyOp s op).assetsDownloaded = s.assetsDownloaded ++ [chosenAssetId a b] := by
  cases op with
  | addEntry ok =>
      left
      simp only [applyOp, execAddEntryBoot]
      split_ifs <;> rfl
  | putContext =>
      left
      simp only [applyOp, execPutContextBoot]
      split_ifs <;> rfl
  | listEntries limit =>
      left
      simp only [applyOp, execListEntries]
      split_ifs <;> rfl
  | getContext ok =>
      left
      simp only [applyOp, execGetContext]
      split_ifs <;> rfl
  | getAsset a b txt =>
      simp only [applyOp, execGetAsset]
      by_cases h1 : chosenAssetId a b = ""
      · left; simp [h1]
      · simp only [h1, if_false]
        cases hc : lookupStr s.assetCache (chosenAssetId a b) with
        | some t => left; simp
        | none =>
            by_cases h2 : txt = ""
            · left; simp [h2]
            · right
              exact ⟨a, b, txt, rfl, h2, by simp [h2]⟩
  | searchMemories => left; rfl
  | createMemory => left; rfl
  | getUser => left; rfl
  | getMemory => left; rfl
  | awaitConsistency => left; rfl
  | listAssets => left; rfl

theorem applyOps_seenGetContext : ∀ (ops : List SimOp) (s : SimState),
    (applyOps s ops).seenGetContext = true →
    s.seenGetContext = true ∨ ∃ op ∈ ops, op = SimOp.getContext true := by
  intro ops
  induction ops with
  | nil => intro s h; left; simpa [applyOps] using h
  | cons op rest ih =>
      intro s h
      rw [show applyOps s (op :: rest) = applyOps (applyOp s op) rest from rfl] at h
      rcases ih _ h with h1 | ⟨op2, hmem, heq⟩
      · rcases applyOp_seenGetContext s op with h2 | h2
        · left; rw [← h2]; exact h1
        · right; exact ⟨op, List.mem_cons_self op rest, h2⟩
      · right; exact ⟨op2, List.mem_cons_of_mem _ hmem, heq⟩

theorem applyOps_seenListEntries : ∀ (ops : List SimOp) (s : SimState),
    (applyOps s ops).seenListEntries = true →
    s.seenListEntries = true ∨ ∃ op ∈ ops, op = SimOp.listEntries 10 := by
  intro ops
  induction ops with
  | nil => intro s h; left; simpa [applyOps] using h
  | cons op rest ih =>
      intro s h
      rw [show applyOps s (op :: rest) = applyOps (applyOp s op) rest from rfl] at h
      rcases ih _ h with h1 | ⟨op2, hmem, heq⟩
      · rcases applyOp_seenListEntries s op with h2 | h2
        · left; rw [← h2]; exact h1
        · right; exact ⟨op, List.mem_cons_self op rest, h2⟩
      · right; exact ⟨op2, List.mem_cons_of_mem _ hmem, heq⟩

theorem applyOps_assetMem : ∀ (ops : List SimOp) (s : SimState) (x : String),
    x ∈ (applyOps s ops).assetsDownloaded →
    x ∈ s.assetsDownloaded ∨
    ∃ op ∈ ops, ∃ a b txt, op = SimOp.getAsset a b txt ∧ txt ≠ "" ∧
      chosenAssetId a b = x := by
  intro ops
  induction ops with
  | nil => intro s x h; left; simpa [applyOps] using h
  | cons op rest ih =>
      intro s x h
      rw [show applyOps s (op :: rest) = applyOps (applyOp s op) rest from rfl] at h
      rcases ih _ _ h with h1 | ⟨op2, hmem, heq⟩
      · rcases applyOp_assetsDownloaded s op with h2 | ⟨a, b, txt, hop, htxt, h2⟩
        · left; rw [← h2]; exact h1
        · rw [h2] at h1
          rcases List.mem_append.mp h1 with h3 | h3
          · left; exact h3
          · right
            refine ⟨op, List.mem_cons_self op rest, a, b, txt, hop, htxt, ?_⟩
            have h4 : x = chosenAssetId a b := by simpa using h3
            exact h4.symm
      · right; exact ⟨op2, List.mem_cons_of_mem _ hmem, heq⟩

theorem applyOp_preserves_complete (s : SimState) (op : SimOp)
    (h : isBootstrapComplete s = true) : isBootstrapComplete (applyOp s op) = true := by
  unfold isBootstrapComplete bootRequiredAssets at h ⊢
  simp only [List.all_cons, List.all_nil, Bool.and_true, Bool.and_eq_true] at h ⊢
  obtain ⟨⟨hg, hl⟩, ha⟩ := h
  refine ⟨⟨?_, ?_⟩, ?_⟩
  · rcases applyOp_seenGetContext s op with h2 | h2
    · rw [h2]; exact hg
    · rw [h2]; rfl
  · rcases applyOp_seenListEntries s op with h2 | h2
    · rw [h2]; exact hl
    · rw [h2]
      simp [applyOp, execListEntries]
  · have hmem : "ctx_rules" ∈ s.assetsDownloaded := by simpa using ha
    rcases applyOp_assetsDownloaded s op with h2 | ⟨a, b, txt, hop, htxt, h2⟩
    · rw [h2]; exact ha
    · rw [h2]
      simp only [List.contains_eq_any_beq] at ha ⊢
      simpa using Or.inl hmem

/-- C3: is_bootstrap_complete is false until all three preconditions have
each been observed at least once (a successful get_context, a list_entries
call with the required limit 10, and a non-empty download of every asset
of the required set, here ctx_rules), and once true it never reverts to
false under any subsequent operation of the session. -/
theorem c3_bootstrap_complete_monotone :
    (∀ ops : List SimOp, isBootstrapComplete (applyOps startState ops) = true →
      (∃ op ∈ ops, op = SimOp.getContext true) ∧
      (∃ op ∈ ops, op = SimOp.listEntries 10) ∧
      (∃ op ∈ ops, ∃ a b txt, op = SimOp.getAsset a b txt ∧ txt ≠ "" ∧
        chosenAssetId a b = "ctx_rules")) ∧
    (∀ (s : SimState) (op : SimOp), isBootstrapComplete s = true →
      isBootstrapComplete (applyOp s op) = true) := by
  constructor
  · intro ops h
    unfold isBootstrapComplete bootRequiredAssets at h
    simp only [List.all_cons, List.all_nil, Bool.and_true, Bool.and_eq_true] at h
    obtain ⟨⟨hg, hl⟩, ha⟩ := h
    refine ⟨?_, ?_, ?_⟩
    · rcases applyOps_seenGetContext ops startState hg with h1 | h1
      · exact absurd h1 (by simp [startState])
      · exact h1
    · rcases applyOps_seenListEntries ops startState hl with h1 | h1
      · exact absurd h1 (by simp [startState])
      · exact h1
    · have hmem : "ctx_rules" ∈ (applyOps startState ops).assetsDownloaded := by
        simpa using ha
      rcases applyOps_assetMem ops startState "ctx_rules" hmem with h1 | h1
      · exact absurd h1 (by simp [startState])
      · exact h1
  · exact applyOp_preserves_complete

theorem c3_bootstrap_complete_monotone_witness :
    isBootstrapComplete (applyOps startState c3Ops) = true ∧
    isBootstrapComplete (applyOp (applyOps startState c3Ops) SimOp.putContext) = true :=
  ⟨by decide, c3_bootstrap_complete_monotone.2 (applyOps startState c3Ops)
      SimOp.putContext (by decide)⟩

/-- C4 counterexample: a list_entries call with limit 7 (any value other
than the mandated 10 per the claim) completes without any error; the
handler raises only on limit 5. -/
theorem c4_list_entries_counterexample :
    (7 : Int) ≠ 10 ∧ (execListEntries 7 startState).2 = Except.ok () :=
  ⟨by decide, rfl⟩

/-- C4 as corrected: the list_entries dispatcher raises the
protocol-violation error exactly for limit 5; limit 10 additionally marks
the bootstrap entries-listed flag, and every other limit executes the
backend listing normally. -/
theorem c4_list_entries_error_iff (limit : Int) (s : SimState) :
    ((∃ e, (execListEntries limit s).2 = Except.error e) ↔ limit = 5) ∧
    ((execListEntries limit s).1.seenListEntries =
      (s.seenListEntries || (limit == 10))) := by
  constructor
  · constructor
    · intro ⟨e, he⟩
      by_contra h5
      simp [execListEntries, h5] at he
    · intro h5
      subst h5
      refine ⟨"Assistant violated bootstrap rule by using list_entries limit 5", ?_⟩
      simp [execListEntries]
  · by_cases h10 : limit = 10
    · subst h10
      simp [execListEntries]
    · have hbeq : (limit == (10 : Int)) = false := by
        simpa using h10
      by_cases h5 : limit = 5 <;> simp [execListEntries, h10, h5, hbeq]

theorem lookupStr_append_left (m t : List (String × String)) (k v : String)
    (h : lookupStr m k = some v) : lookupStr (m ++ t) k = some v := by
  unfold lookupStr at h ⊢
  rw [List.find?_append]
  cases hf : List.find? (fun p => p.1 == k) m with
  | none => rw [hf] at h; simp at h
  | some x => rw [hf] at h; simp [Option.or]; simpa using h

theorem lookupStr_append_new (m : List (String × String)) (k v : String)
    (h : lookupStr m k = none) : lookupStr (m ++ [(k, v)]) k = some v := by
  unfold lookupStr at h ⊢
  rw [List.find?_append]
  cases hf : List.find? (fun p => p.1 == k) m with
  | some x => rw [hf] at h; simp at h
  | none => simp [Option.or, List.find?]

theorem applyOp_cache_persists (s : SimState) (op : SimOp) (k v : String)
    (h : lookupStr s.assetCache k = some v) :
    lookupStr (applyOp s op).assetCache k = some v := by
  cases op with
  | addEntry ok =>
      simp only [applyOp, execAddEntryBoot]
      split_ifs <;> exact h
  | putContext =>
      simp only [applyOp, execPutContextBoot]
      split_ifs <;> exact h
  | listEntries limit =>
      simp only [applyOp, execListEntries]
      split_ifs <;> exact h
  | getContext ok =>
      simp only [applyOp, execGetContext]
      split_ifs <;> exact h
  | getAsset a b txt =>
      simp only [applyOp, execGetAsset]
      by_cases h1 : chosenAssetId a b = ""
      · simpa [h1] using h
      · simp only [h1, if_false]
        cases hc : lookupStr s.assetCache (chosenAssetId a b) with
        | some t => simpa using h
        | none =>
            by_cases h2 : txt = ""
            · simpa [h2] using h
            · simpa [h2] using lookupStr_append_left _ _ _ _ h
  | searchMemories => exact h
  | createMemory => exact h
  | getUser => exact h
  | getMemory => exact h
  | awaitConsistency => exact h
  | listAssets => exact h

/-- C10: get_asset is idempotent per session with at most one backend
fetch per asset id.  Conjuncts: (1) a successful call leaves the returned
text cached under the chosen asset id; (2) when the id is cached, the call
returns the identical cached text and leaves the whole state unchanged
(in particular fetchLog, so no backend contact), whatever the backend
would now return; (3) every session operation preserves cache entries;
(4) a fetch whose backend result is empty raises and caches nothing. -/
theorem c10_get_asset_cached (backend : String → String) (a b : Option String)
    (s : SimState) :
    (∀ txt, (execGetAsset backend a b s).2 = Except.ok txt →
      lookupStr (execGetAsset backend a b s).1.assetCache (chosenAssetId a b) = some txt) ∧
    (∀ backend2 txt, lookupStr s.assetCache (chosenAssetId a b) = some txt →
      chosenAssetId a b ≠ "" →
      execGetAsset backend2 a b s = (s, Except.ok txt)) ∧
    (∀ (s2 : SimState) (op : SimOp) (k v : String),
      lookupStr s2.assetCache k = some v →
      lookupStr (applyOp s2 op).assetCache k = some v) ∧
    (backend (chosenAssetId a b) = "" →
      lookupStr s.assetCache (chosenAssetId a b) = none → chosenAssetId a b ≠ "" →
      (∃ e, (execGetAsset backend a b s).2 = Except.error e) ∧
      (execGetAsset backend a b s).1.assetCache = s.assetCache) := by
  refine ⟨?_, ?_, applyOp_cache_persists, ?_⟩
  · intro txt hok
    by_cases h1 : chosenAssetId a b = ""
    · simp [execGetAsset, h1] at hok
    · cases hc : lookupStr s.assetCache (chosenAssetId a b) with
      | some t =>
          have heq : t = txt := by simpa [execGetAsset, h1, hc] using hok
          have hfst : (execGetAsset backend a b s).1 = s := by
            simp [execGetAsset, h1, hc]
          rw [hfst, hc, heq]
      | none =>
          by_cases h2 : backend (chosenAssetId a b) = ""
          · simp [execGetAsset, h1, hc, h2] at hok
          · have heq : backend (chosenAssetId a b) = txt := by
              simpa [execGetAsset, h1, hc, h2] using hok
            have hfst : (execGetAsset backend a b s).1.assetCache
                = s.assetCache ++ [(chosenAssetId a b, backend (chosenAssetId a b))] := by
              simp [execGetAsset, h1, hc, h2]
            rw [hfst, ← heq]
            exact lookupStr_append_new _ _ _ hc
  · intro backend2 txt hcache hne
    unfold execGetAsset
    simp [hne, hcache]
  · intro hempty hmiss hne
    unfold execGetAsset
    simp [hne, hmiss, hempty]

theorem c10_get_asset_cached_witness :
    lookupStr c10State.assetCache (chosenAssetId (some "ctx_rules") none) = some "rules text" ∧
    execGetAsset (fun _ => "") (some "ctx_rules") none c10State =
      (c10State, Except.ok "rules text") :=
  ⟨by decide,
   (c10_get_asset_cached (fun _ => "other") (some "ctx_rules") none c10State).2.1
     (fun _ => "") "rules text" (by decide) (by decide)⟩

/-- C8 counterexample: the candidate abc is not UUID-shaped, the alias map
is empty and no default is stored, so under the claim resolution must
raise; the source instead returns abc through its last-resort branch. -/
theorem c8_resolve_counterexample :
    isUuidLike "abc" = false ∧ lookupStr [] "abc" = none ∧ truthyOpt none = false ∧
    resolveMemoryId [] none (some "abc") = Except.ok "abc" ∧
    resolveMemoryIdSpec [] none (some "abc") =
      Except.error "Unable to resolve memory_id - none provided and none stored" :=
  ⟨by decide, rfl, rfl, rfl, rfl⟩

/-- C8 as corrected: resolution accepts a UUID-shaped candidate as given,
else resolves a candidate through the alias map, else uses the truthy
stored default, else returns a truthy non-UUID candidate as given (the
last-resort branch the claim omits), and raises the resolution ValueError
exactly when the candidate and the stored default are both falsy. -/
theorem c8_resolve_order (aliases : List (String × String))
    (memIdAttr candidate : Option String) :
    ((∃ e, resolveMemoryId aliases memIdAttr candidate = Except.error e) ↔
      truthyOpt candidate = false ∧ truthyOpt memIdAttr = false) ∧
    (∀ cand, candidate = some cand → truthyOpt candidate = true →
      isUuidLike cand = true →
      resolveMemoryId aliases memIdAttr candidate = Except.ok cand) ∧
    (∀ cand v, candidate = some cand → truthyOpt candidate = true →
      isUuidLike cand = false → lookupStr aliases cand = some v →
      resolveMemoryId aliases memIdAttr candidate = Except.ok v) ∧
    (∀ cand, candidate = some cand → truthyOpt candidate = true →
      isUuidLike cand = false → lookupStr aliases cand = none →
      truthyOpt memIdAttr = true →
      resolveMemoryId aliases memIdAttr candidate = Except.ok (memIdAttr.getD "")) ∧
    (∀ cand, candidate = some cand → truthyOpt candidate = true →
      isUuidLike cand = false → lookupStr aliases cand = none →
      truthyOpt memIdAttr = false →
      resolveMemoryId aliases memIdAttr candidate = Except.ok cand) ∧
    (truthyOpt candidate = false → truthyOpt memIdAttr = true →
      resolveMemoryId aliases memIdAttr candidate = Except.ok (memIdAttr.getD "")) := by
  refine ⟨?_, ?_, ?_, ?_, ?_, ?_⟩
  · constructor
    · intro ⟨e, he⟩
      unfold resolveMemoryId at he
      by_cases hc : truthyOpt candidate
      · by_cases hu : isUuidLike (candidate.getD "")
        · simp [hc, hu] at he
        · cases hl : lookupStr aliases (candidate.getD "") with
          | some v => simp [hc, hu, hl] at he
          | none =>
              by_cases hm : truthyOpt memIdAttr
              · simp [hc, hu, hl, hm] at he
              · simp [hc, hu, hl, hm] at he
      · by_cases hm : truthyOpt memIdAttr
        · simp [hc, hm] at he
        · simp only [Bool.not_eq_true] at hc hm
          exact ⟨hc, hm⟩
    · intro ⟨hc, hm⟩
      refine ⟨"Unable to resolve memory_id - none provided and none stored", ?_⟩
      unfold resolveMemoryId
      simp [hc, hm]
  · intro cand hcand hc hu
    subst hcand
    unfold resolveMemoryId
    simp [hc, hu]
  · intro cand v hcand hc hu hl
    subst hcand
    unfold resolveMemoryId
    simp [hc, hu, hl]
  · intro cand hcand hc hu hl hm
    subst hcand
    unfold resolveMemoryId
    simp [hc, hu, hl, hm]
  · intro cand hcand hc hu hl hm
    subst hcand
    unfold resolveMemoryId
    simp [hc, hu, hl, hm]
  · intro hc hm
    unfold resolveMemoryId
    simp [hc, hm]

theorem c8_resolve_order_witness :
    truthyOpt (some "trip notes") = true ∧ isUuidLike "trip notes" = false ∧
    lookupStr c8Aliases "trip notes" = some "123e4567-e89b-12d3-a456-426614174000" ∧
    resolveMemoryId c8Aliases none (some "trip notes") =
      Except.ok "123e4567-e89b-12d3-a456-426614174000" :=
  ⟨rfl, by decide, rfl,
   (c8_resolve_order c8Aliases none (some "trip notes")).2.2.1 "trip notes"
     "123e4567-e89b-12d3-a456-426614174000" rfl rfl (by decide) rfl⟩

theorem closeLoop_closed_iff : ∀ (fuel i : Nat) (script : Nat → Option StepCounters),
    (∃ rep, closeLoop script i fuel = CloseOutcome.closed rep) ↔
    ∃ k, k < fuel ∧ (∃ r, script (i + k) = some r ∧ ctxCaptured r = true) ∧
      ∀ j, j < k → ∃ r, script (i + j) = some r ∧ ctxCaptured r = false := by
  intro fuel
  induction fuel with
  | zero =>
      intro i script
      constructor
      · intro ⟨rep, hrep⟩
        exfalso
        unfold closeLoop at hrep
        cases hs : script i with
        | some r => rw [hs] at hrep; simp at hrep
        | none => rw [hs] at hrep; simp at hrep
      · intro ⟨k, hk, _⟩
        exact absurd hk (Nat.not_lt_zero k)
  | succ fuel ih =>
      intro i script
      constructor
      · intro ⟨rep, hrep⟩
        unfold closeLoop at hrep
        cases hs : script i with
        | none => rw [hs] at hrep; simp at hrep
        | some r =>
            rw [hs] at hrep
            simp only at hrep
            by_cases hcap : ctxCaptured r = true
            · refine ⟨0, Nat.succ_pos fuel, ⟨r, by simpa using hs, hcap⟩, ?_⟩
              intro j hj
              exact absurd hj (Nat.not_lt_zero j)
            · rw [if_neg hcap] at hrep
              obtain ⟨k, hk, hcapk, hprev⟩ := (ih (i + 1) script).mp ⟨rep, hrep⟩
              refine ⟨k + 1, Nat.succ_lt_succ hk, ?_, ?_⟩
              · obtain ⟨r2, hr2, hc2⟩ := hcapk
                exact ⟨r2, by rw [show i + (k + 1) = i + 1 + k by omega]; exact hr2, hc2⟩
              · intro j hj
                cases j with
                | zero =>
                    exact ⟨r, by simpa using hs, by simpa using hcap⟩
                | succ j2 =>
                    obtain ⟨r2, hr2, hc2⟩ := hprev j2 (by omega)
                    exact ⟨r2, by rw [show i + (j2 + 1) = i + 1 + j2 by omega]; exact hr2, hc2⟩
      · intro ⟨k, hk, hcapk, hprev⟩
        cases k with
        | zero =>
            obtain ⟨r, hr, hc⟩ := hcapk
            refine ⟨r.reply, ?_⟩
            unfold closeLoop
            rw [show i + 0 = i by omega] at hr
            rw [hr]
            simp [hc]
        | succ k2 =>
            obtain ⟨r0, hr0, hc0⟩ := hprev 0 (Nat.succ_pos k2)
            rw [show i + 0 = i by omega] at hr0
            have hrest : ∃ rep, closeLoop script (i + 1) fuel = CloseOutcome.closed rep := by
              refine (ih (i + 1) script).mpr ⟨k2, by omega, ?_, ?_⟩
              · obtain ⟨r2, hr2, hc2⟩ := hcapk
                exact ⟨r2, by rw [show i + 1 + k2 = i + (k2 + 1) by omega]; exact hr2, hc2⟩
              · intro j hj
                obtain ⟨r2, hr2, hc2⟩ := hprev (j + 1) (by omega)
                exact ⟨r2, by rw [show i + 1 + j = i + (j + 1) by omega]; exact hr2, hc2⟩
            obtain ⟨rep, hrep⟩ := hrest
            refine ⟨rep, ?_⟩
            unfold closeLoop
            rw [hr0]
            simp [hc0]
            exact hrep

theorem closeLoop_exhausted : ∀ (fuel i : Nat) (script : Nat → Option StepCounters),
    (∀ k, k < fuel → ∃ r, script (i + k) = some r ∧ ctxCaptured r = false) →
    ∃ ex, closeLoop script i fuel = CloseOutcome.closeFailed ex := by
  intro fuel
  induction fuel with
  | zero =>
      intro i script _
      unfold closeLoop
      cases script i with
      | some r => exact ⟨some r.reply, rfl⟩
      | none => exact ⟨none, rfl⟩
  | succ fuel ih =>
      intro i script hall
      obtain ⟨r0, hr0, hc0⟩ := hall 0 (Nat.succ_pos fuel)
      rw [show i + 0 = i by omega] at hr0
      obtain ⟨ex, hex⟩ := ih (i + 1) script (by
        intro k hk
        obtain ⟨r2, hr2, hc2⟩ := hall (k + 1) (by omega)
        exact ⟨r2, by rw [show i + 1 + k = i + (k + 1) by omega]; exact hr2, hc2⟩)
      refine ⟨ex, ?_⟩
      unfold closeLoop
      rw [hr0]
      simp [hc0]
      exact hex

/-- C2: close_session returns normally iff, on some attempt of at most
ten, the recorded last-context-update turn equals the current message
counter right after that attempt's step (the put_context observation, as
the exit test reads it) and every earlier attempt's step completed with
the test false; when all ten attempts complete without the observation,
close_session raises the RuntimeError. -/
theorem c2_close_session_iff (script : Nat → Option StepCounters) :
    ((∃ rep, closeSessionRun script = CloseOutcome.closed rep) ↔
      ∃ k, k < 10 ∧ (∃ r, script k = some r ∧ ctxCaptured r = true) ∧
        ∀ j, j < k → ∃ r, script j = some r ∧ ctxCaptured r = false) ∧
    ((∀ k, k < 10 → ∃ r, script k = some r ∧ ctxCaptured r = false) →
      ∃ ex, closeSessionRun script = CloseOutcome.closeFailed ex) := by
  constructor
  · have h := closeLoop_closed_iff 10 0 script
    simpa [closeSessionRun] using h
  · intro hall
    have h := closeLoop_exhausted 10 0 script (by simpa using hall)
    simpa [closeSessionRun] using h

theorem c2_close_session_iff_witness :
    ∃ rep, closeSessionRun c2Script = CloseOutcome.closed rep :=
  (c2_close_session_iff c2Script).1.mpr
    ⟨1, by omega,
     ⟨{ msgCounter := 5, lastCtxUpdate := 5, reply := "control:note_taker_assistant OK" },
      rfl, rfl⟩,
     by
      intro j hj
      have hj0 : j = 0 := by omega
      subst hj0
      exact ⟨{ msgCounter := 3, lastCtxUpdate := 0, reply := "draining" }, rfl, rfl⟩⟩

theorem minDouble (m : Nat) :
    min (min ((60 : ℚ) * 2 ^ m) 300 * 2) 300 = min (60 * 2 ^ (m + 1)) 300 := by
  rcases le_total ((60 : ℚ) * 2 ^ m) 300 with h | h
  · rw [min_eq_left h, pow_succ]
    ring_nf
  · rw [min_eq_right h]
    have h2 : (300 : ℚ) ≤ 60 * 2 ^ (m + 1) := by
      calc (300 : ℚ) ≤ 60 * 2 ^ m := h
        _ ≤ 60 * 2 ^ (m + 1) := by
            rw [pow_succ]
            nlinarith [pow_pos (by norm_num : (0:ℚ) < 2) m]
    rw [min_eq_right h2]
    norm_num

theorem overloadFail_none_iff (dl d : ℚ) (s : OverloadState) :
    overloadFail dl d s = none ↔ dl < s.time + d + s.backoff := by
  unfold overloadFail
  split_ifs with h
  · simpa using h
  · simpa using h

theorem overloadRun_backoff (dl : ℚ) : ∀ (ds : List ℚ) (t : ℚ) (m : Nat)
    (s2 : OverloadState),
    overloadRun dl ds { time := t, backoff := min (60 * 2 ^ m) 300 } = some s2 →
    s2.backoff = min (60 * 2 ^ (m + ds.length)) 300 := by
  intro ds
  induction ds with
  | nil =>
      intro t m s2 h
      unfold overloadRun at h
      injection h with h2
      rw [← h2]
      simp
  | cons d ds ih =>
      intro t m s2 h
      unfold overloadRun at h
      cases hf : overloadFail dl d { time := t, backoff := min (60 * 2 ^ m) 300 } with
      | none => rw [hf] at h; simp at h
      | some s1 =>
          rw [hf] at h
          simp only at h
          unfold overloadFail at hf
          split_ifs at hf with hcond
          injection hf with hf2
          rw [← hf2] at h
          simp only [minDouble] at h
          have := ih _ (m + 1) s2 h
          rw [this]
          simp only [List.length_cons]
          rw [show m + 1 + ds.length = m + (ds.length + 1) by omega]

theorem overloadRun_time_le (dl : ℚ) : ∀ (ds : List ℚ) (s s2 : OverloadState),
    s.time ≤ dl → overloadRun dl ds s = some s2 → s2.time ≤ dl := by
  intro ds
  induction ds with
  | nil =>
      intro s s2 hle h
      unfold overloadRun at h
      injection h with h2
      rw [← h2]
      exact hle
  | cons d ds ih =>
      intro s s2 hle h
      unfold overloadRun at h
      cases hf : overloadFail dl d s with
      | none => rw [hf] at h; simp at h
      | some s1 =>
          rw [hf] at h
          simp only at h
          unfold overloadFail at hf
          split_ifs at hf with hcond
          injection hf with hf2
          refine ih s1 s2 ?_ h
          rw [← hf2]
          simpa using not_lt.mp hcond

theorem overloadRun_none_iff (dl : ℚ) : ∀ (ds : List ℚ) (s : OverloadState),
    overloadRun dl ds s = none ↔
    ∃ k, k < ds.length ∧ ∃ s2, overloadRun dl (ds.take k) s = some s2 ∧
      dl < s2.time + ds.getD k 0 + s2.backoff := by
  intro ds
  induction ds with
  | nil =>
      intro s
      constructor
      · intro h; simp [overloadRun] at h
      · intro ⟨k, hk, _⟩; simp at hk
  | cons d ds ih =>
      intro s
      cases hf : overloadFail dl d s with
      | none =>
          have hcond := (overloadFail_none_iff dl d s).mp hf
          constructor
          · intro _
            exact ⟨0, by simp, s, by simp [overloadRun], by simpa using hcond⟩
          · intro _
            unfold overloadRun
            rw [hf]
      | some s1 =>
          have hcond := (overloadFail_none_iff dl d s)
          rw [hf] at hcond
          have hnotlt : ¬ dl < s.time + d + s.backoff := by
            intro hlt
            have := hcond.mpr hlt
            simp at this
          constructor
          · intro h
            unfold overloadRun at h
            rw [hf] at h
            simp only at h
            obtain ⟨k, hk, s2, hrun, hgt⟩ := (ih s1).mp h
            refine ⟨k + 1, by simpa using Nat.succ_lt_succ hk, s2, ?_, ?_⟩
            · rw [List.take_succ_cons]
              unfold overloadRun
              rw [hf]
              exact hrun
            · simpa [List.getD_cons_succ] using hgt
          · intro ⟨k, hk, s2, hrun, hgt⟩
            cases k with
            | zero =>
                simp [overloadRun] at hrun
                rw [← hrun] at hgt
                simp [List.getD_cons_zero] at hgt
                exact absurd hgt hnotlt
            | succ k2 =>
                rw [List.take_succ_cons] at hrun
                unfold overloadRun at hrun
                rw [hf] at hrun
                simp only at hrun
                unfold overloadRun
                rw [hf]
                simp only
                exact (ih s1).mpr ⟨k2, by simpa using Nat.lt_of_succ_lt_succ hk, s2, hrun,
                  by simpa [List.getD_cons_succ] using hgt⟩

theorem overloadDelays_schedule (dl : ℚ) : ∀ (ds : List ℚ) (t : ℚ) (m n : Nat),
    (overloadDelays dl ds { time := t, backoff := min (60 * 2 ^ m) 300 }).length = n →
    overloadDelays dl ds { time := t, backoff := min (60 * 2 ^ m) 300 } =
      (List.range n).map (fun k => min (60 * 2 ^ (m + k)) 300) := by
  intro ds
  induction ds with
  | nil =>
      intro t m n hn
      simp only [overloadDelays, List.length_nil] at hn
      rw [← hn]
      rfl
  | cons d ds ih =>
      intro t m n hn
      unfold overloadDelays at hn ⊢
      cases hf : overloadFail dl d { time := t, backoff := min (60 * 2 ^ m) 300 } with
      | none =>
          rw [hf] at hn
          simp only [List.length_nil] at hn
          rw [← hn]
          rfl
      | some s1 =>
          rw [hf] at hn
          simp only [List.length_cons] at hn
          unfold overloadFail at hf
          split_ifs at hf with hcond
          injection hf with hf2
          cases n with
          | zero => exact absurd hn (by omega)
          | succ n2 =>
              have hn2 : (overloadDelays dl ds s1).length = n2 := by omega
              rw [← hf2] at hn2
              simp only [minDouble] at hn2
              have hrest := ih (t + d + min (60 * 2 ^ m) 300) (m + 1) n2 hn2
              simp only
              rw [← hf2]
              simp only [minDouble]
              rw [hrest, List.range_succ_eq_map, List.map_cons, List.map_map]
              congr 1
              refine List.map_congr_left ?_
              intro k _
              have hmk : m + (k + 1) = m + 1 + k := by omega
              simp [Function.comp, Nat.succ_eq_add_one, hmk]

/-- C6: within one step call, consecutive capacity-overload retries sleep
60, 120, 240 seconds and then 300 at the cap (the k-th delay slept is
min (60 * 2 ^ k) 300); the deadline is the single absolute value t0 + 600
fixed when the loop started; a successful exit issues its final request no
later than that deadline; and the error propagates exactly when, after
some prefix of absorbed failures, the current time plus the next delay
passes the deadline. -/
theorem c6_overload_retry (t0 : ℚ) (ds : List ℚ) :
    (overloadDelays (t0 + 600) ds (overloadStart t0) =
      (List.range (overloadDelays (t0 + 600) ds (overloadStart t0)).length).map
        (fun k => min (60 * 2 ^ k) 300)) ∧
    (∀ s2, overloadRun (t0 + 600) ds (overloadStart t0) = some s2 →
      s2.time ≤ t0 + 600) ∧
    (overloadRun (t0 + 600) ds (overloadStart t0) = none ↔
      ∃ k, k < ds.length ∧
        ∃ s2, overloadRun (t0 + 600) (ds.take k) (overloadStart t0) = some s2 ∧
          t0 + 600 < s2.time + ds.getD k 0 + s2.backoff) := by
  have hstart : overloadStart t0 = { time := t0, backoff := min (60 * 2 ^ 0) 300 } := by
    norm_num [overloadStart]
  refine ⟨?_, ?_, ?_⟩
  · rw [hstart]
    have hsched := overloadDelays_schedule (t0 + 600) ds t0 0
      (overloadDelays (t0 + 600) ds { time := t0, backoff := min (60 * 2 ^ 0) 300 }).length rfl
    calc overloadDelays (t0 + 600) ds { time := t0, backoff := min (60 * 2 ^ 0) 300 }
        = (List.range (overloadDelays (t0 + 600) ds
            { time := t0, backoff := min (60 * 2 ^ 0) 300 }).length).map
            (fun k => min (60 * 2 ^ (0 + k)) 300) := hsched
      _ = (List.range (overloadDelays (t0 + 600) ds
            { time := t0, backoff := min (60 * 2 ^ 0) 300 }).length).map
            (fun k => min (60 * 2 ^ k) 300) :=
          List.map_congr_left (fun k _ => by rw [Nat.zero_add])
  · intro s2 h
    exact overloadRun_time_le (t0 + 600) ds (overloadStart t0) s2 (by simp [overloadStart]) h
  · exact overloadRun_none_iff (t0 + 600) ds (overloadStart t0)

theorem c6_overload_retry_witness :
    overloadRun ((0 : ℚ) + 600) [650] (overloadStart 0) = none :=
  (c6_overload_retry 0 [650]).2.2.mpr
    ⟨0, by norm_num, overloadStart 0, rfl, by norm_num [overloadStart, List.getD]⟩

/-- C7: an add_entry call with a missing or empty summary attempts exactly
one diagnostic turn, raises the ValueError whatever the diagnostic
outcome was, and because the dispatch error propagates out of step before
the echo/result loop, no tool_result entry for that call is appended to
history (none existed before and the diagnostic turns produced none for
this call id). -/
theorem c7_add_entry_missing_summary (diag : Except String String)
    (rest : DiagRecord × Option ToolError) (a : AddEntryArgs)
    (hmiss : summaryMissing a = true) :
    (execAddEntrySummaryGate diag rest a).1.prompts = 1 ∧
    (execAddEntrySummaryGate diag rest a).2 =
      some (ToolError.valueError "add_entry tool call missing mandatory summary field") ∧
    (∀ (h d : List HistEntry) (u callId : String) (blocks : List ContentBlock),
      countResultsFor callId h = 0 → countResultsFor callId d = 0 →
      countResultsFor callId (stepHistoryDispatchError h u blocks d) = 0) := by
  refine ⟨by simp [execAddEntrySummaryGate, hmiss],
          by simp [execAddEntrySummaryGate, hmiss], ?_⟩
  intro h d u callId blocks hh hd
  unfold countResultsFor at hh hd ⊢
  unfold stepHistoryDispatchError
  by_cases hr : replyText blocks = "" <;>
    simp [hr, List.countP_append, List.countP_cons, hh, hd]

theorem c7_add_entry_missing_summary_witness :
    summaryMissing c7Args = true ∧
    (execAddEntrySummaryGate (Except.ok "I skipped the rules") ({ prompts := 0, logged := none }, none) c7Args).1.prompts = 1 ∧
    (execAddEntrySummaryGate (Except.ok "I skipped the rules") ({ prompts := 0, logged := none }, none) c7Args).2 =
      some (ToolError.valueError "add_entry tool call missing mandatory summary field") ∧
    countResultsFor "toolu_02" (stepHistoryDispatchError [] "store this" c7Blocks []) = 0 :=
  ⟨rfl,
   (c7_add_entry_missing_summary (Except.ok "I skipped the rules")
      ({ prompts := 0, logged := none }, none) c7Args rfl).1,
   (c7_add_entry_missing_summary (Except.ok "I skipped the rules")
      ({ prompts := 0, logged := none }, none) c7Args rfl).2.1,
   (c7_add_entry_missing_summary (Except.ok "I skipped the rules")
      ({ prompts := 0, logged := none }, none) c7Args rfl).2.2
     [] [] "store this" "toolu_02" c7Blocks rfl rfl⟩

/-- C9 refuted on the code: under the schedule in which both tasks read
the stale _last_call_ts = 0 before either sleeps, both compute sleep_for =
10.00 s and wake at 15.00 s, and the two outbound calls are issued at
15.05 s and 15.15 s - 0.10 s apart, far closer than the configured
15-second interval the claim asserts.  The read and the write of
_last_call_ts are separated by the await, so concurrent callers serialize
on nothing. -/
theorem c9_rate_limiter_race :
    (runRateSched c9Start [0, 1, 0, 0, 1, 1]).calls = [1505, 1520] ∧
    (1520 : Int) - 1505 < rateIntervalCs ∧ (0 : Int) < 1520 - 1505 := by
  refine ⟨?_, by decide, by decide⟩
  decide

end SessionSim
